import Mathlib

/-!
Verification of the cash-and-carry arbitrage bot (spot-long / futures-short)
against its natural-language specification.  The Python source is shallowly
embedded: prices, quantities and times are rationals, stateful operations
become explicit state-passing functions, and fallible operations return
`Option`.  Every definition mirrors one function of the source.
-/

/-! ## Configuration constants (src/config.py) -/

/-- `MIN_FUNDING_RATE = 0.02` from src/config.py. -/
def MIN_FUNDING_RATE : ℚ := 2 / 100

/-- `CLOSE_FR_THRESHOLD = -0.001` from src/config.py. -/
def CLOSE_FR_THRESHOLD : ℚ := -1 / 1000

/-- `MAX_CLOSE_SPREAD_PCT = 0.15` from src/config.py. -/
def MAX_CLOSE_SPREAD_PCT : ℚ := 15 / 100

/-- `LOW_FR_TRACKING_THRESHOLD = 0.01` from src/config.py. -/
def LOW_FR_TRACKING_THRESHOLD : ℚ := 1 / 100

/-- `MIN_FUNDING_PAYMENTS_FOR_CLOSE = 15` from src/config.py. -/
def MIN_FUNDING_PAYMENTS_FOR_CLOSE : ℕ := 15

/-- `CRITICAL_ERROR_CODES = [30228, 10001, 110043]` from src/config.py. -/
def CRITICAL_ERROR_CODES : List ℤ := [30228, 10001, 110043]

/-! ## Python rounding

Python's built-in `round(x, 4)` rounds half to even (banker's rounding).
We model it on exact rationals. -/

/-- Round a rational to the nearest integer, ties to even (Python `round`). -/
def pyRoundInt (x : ℚ) : ℤ :=
  if x - Int.floor x < 1 / 2 then Int.floor x
  else if x - Int.floor x > 1 / 2 then Int.floor x + 1
  else if Int.floor x % 2 = 0 then Int.floor x else Int.floor x + 1

/-- Python `round(x, 4)`: round to four decimal places, ties to even. -/
def pyRound4 (x : ℚ) : ℚ := (pyRoundInt (x * 10000) : ℚ) / 10000

/-! ## PnLCalculator (src/pnl_calculator.py) -/

/-- Result dictionary of `PnLCalculator.calculate_pnl`. -/
structure PnLResult where
  net_pnl : ℚ
  price_pnl : ℚ
  spot_pnl : ℚ
  futures_pnl : ℚ
  commission : ℚ
  funding : ℚ
deriving DecidableEq, Repr

/-- `PnLCalculator.calculate_pnl` from src/pnl_calculator.py, line by line:
spot leg PnL, short futures leg PnL, commission on the total traded volume
(entry and exit of both legs), net PnL, all rounded to 4 decimals. -/
def calculate_pnl (spot_entry_price spot_exit_price futures_entry_price
    futures_exit_price spot_qty futures_qty commission_rate
    total_funding_received : ℚ) : PnLResult :=
  let spot_pnl := (spot_exit_price - spot_entry_price) * spot_qty
  let futures_pnl := (futures_entry_price - futures_exit_price) * futures_qty
  let price_pnl := spot_pnl + futures_pnl
  let spot_entry_volume := spot_qty * spot_entry_price
  let futures_entry_volume := futures_qty * futures_entry_price
  let spot_exit_volume := spot_qty * spot_exit_price
  let futures_exit_volume := futures_qty * futures_exit_price
  let total_volume := spot_entry_volume + futures_entry_volume +
    spot_exit_volume + futures_exit_volume
  let commission := total_volume * commission_rate
  let net_pnl := price_pnl + total_funding_received - commission
  { net_pnl := pyRound4 net_pnl
    price_pnl := pyRound4 price_pnl
    spot_pnl := pyRound4 spot_pnl
    futures_pnl := pyRound4 futures_pnl
    commission := pyRound4 commission
    funding := pyRound4 total_funding_received }

/-- The commission formula the specification claims: twice the average entry
notional times the commission rate (written from the spec, for refutation). -/
def specCommission (spot_entry_price futures_entry_price spot_qty futures_qty
    commission_rate : ℚ) : ℚ :=
  (spot_qty * spot_entry_price + futures_qty * futures_entry_price) / 2
    * 2 * commission_rate

/-! ## Position funding-round tracking
(src/database/repositories/position_repository.py,
 src/managers/position_manager.py) -/

/-- The funding-tracking slice of the `positions` table row. -/
structure FundingState where
  fundingPaymentsCount : ℕ
  lowFrCount : ℕ
  consecutiveLowFr : Bool
deriving DecidableEq, Repr

/-- `PositionRepository.increment_funding_count`: bump the payment counter;
if the current funding rate is at or below the tracking threshold, bump the
low-FR counter, otherwise reset the counter to 0 and clear the soft-close
flag `consecutive_low_fr`. -/
def repoIncrementFundingCount (pos : FundingState) (currentFr lowFrThreshold : ℚ) :
    FundingState :=
  let pos := { pos with fundingPaymentsCount := pos.fundingPaymentsCount + 1 }
  if currentFr ≤ lowFrThreshold then
    { pos with lowFrCount := pos.lowFrCount + 1 }
  else
    { pos with lowFrCount := 0, consecutiveLowFr := false }

/-- `MultiPositionManager.increment_funding_count`: delegate to the
repository, then activate soft-close mode when the low-FR counter reached
`MIN_FUNDING_PAYMENTS_FOR_CLOSE` and the flag is not yet set. -/
def incrementFundingCount (pos : FundingState) (currentFr : ℚ) : FundingState :=
  let pos := repoIncrementFundingCount pos currentFr LOW_FR_TRACKING_THRESHOLD
  if MIN_FUNDING_PAYMENTS_FOR_CLOSE ≤ pos.lowFrCount ∧ pos.consecutiveLowFr = false then
    { pos with consecutiveLowFr := true }
  else pos

/-! ## Close decision of the monitoring loop
(src/services/opportunity_monitor.py, monitor_open_position_single) -/

/-- The close condition evaluated on every monitoring round: soft mode
requires `funding_rate <= LOW_FR_TRACKING_THRESHOLD`, normal mode
`funding_rate < CLOSE_FR_THRESHOLD`; both require the close spread at or
below `MAX_CLOSE_SPREAD_PCT`. -/
def shouldClose (softModeActive : Bool) (fundingRate closeSpread : ℚ) : Bool :=
  if softModeActive then
    decide (fundingRate ≤ LOW_FR_TRACKING_THRESHOLD) &&
      decide (closeSpread ≤ MAX_CLOSE_SPREAD_PCT)
  else
    decide (fundingRate < CLOSE_FR_THRESHOLD) &&
      decide (closeSpread ≤ MAX_CLOSE_SPREAD_PCT)

/-- One round of the close monitor: compute the close spread
`(fut_ask - spot_bid) / spot_bid * 100` from the orderbook and either start
closing or keep waiting. -/
inductive RoundAction
  | closeAttempt
  | wait
deriving DecidableEq, Repr

/-- Per-round decision of `monitor_open_position_single` (lines 108-131):
the close spread is computed from the orderbook, then `shouldClose`
decides between closing and waiting another interval. -/
def monitorRound (softModeActive : Bool) (fundingRate spotBid futAsk : ℚ) :
    RoundAction :=
  let closeSpread := (futAsk - spotBid) / spotBid * 100
  if shouldClose softModeActive fundingRate closeSpread then .closeAttempt
  else .wait

/-! ## Position averaging on a top-up
(src/managers/position_manager.py, MultiPositionManager.add_to_position) -/

/-- The slice of a position row touched by `add_to_position`. -/
structure PositionAvg where
  spotQty : ℚ
  futuresQty : ℚ
  averageSpotEntryPrice : ℚ
  averageFuturesEntryPrice : ℚ
  lastEntrySpreadPct : ℚ
  totalEntries : ℕ
  lastAdditionTimestamp : Option ℚ
deriving DecidableEq, Repr

/-- The update performed by `MultiPositionManager.add_to_position`: blend
the new fill into the volume-weighted average entry price of each leg
independently, add the quantities, bump `total_entries`, stamp the
addition time and record the spread of this entry. -/
def addToPositionUpd (pos : PositionAvg) (newSpotPrice newFuturesPrice
    newSpotQty newFuturesQty newSpreadPct : ℚ) (now : ℚ) : PositionAvg :=
  { pos with
    spotQty := pos.spotQty + newSpotQty
    futuresQty := pos.futuresQty + newFuturesQty
    averageSpotEntryPrice :=
      (pos.averageSpotEntryPrice * pos.spotQty + newSpotPrice * newSpotQty) /
        (pos.spotQty + newSpotQty)
    averageFuturesEntryPrice :=
      (pos.averageFuturesEntryPrice * pos.futuresQty +
        newFuturesPrice * newFuturesQty) / (pos.futuresQty + newFuturesQty)
    lastEntrySpreadPct := newSpreadPct
    totalEntries := pos.totalEntries + 1
    lastAdditionTimestamp := some now }

/-- Guarded entry point of `add_to_position`: a zero total quantity on
either leg raises a `ZeroDivisionError` in the source, caught by the
surrounding handler which reports failure — modelled as `none`. -/
def addToPosition (pos : PositionAvg) (newSpotPrice newFuturesPrice
    newSpotQty newFuturesQty newSpreadPct : ℚ) (now : ℚ) : Option PositionAvg :=
  if pos.spotQty + newSpotQty = 0 ∨ pos.futuresQty + newFuturesQty = 0 then none
  else some (addToPositionUpd pos newSpotPrice newFuturesPrice newSpotQty
    newFuturesQty newSpreadPct now)

/-- Strictly between two rationals, in either order. -/
def StrictlyBetween (a m b : ℚ) : Prop := (a < m ∧ m < b) ∨ (b < m ∧ m < a)

/-! ## Order execution results and events
(src/order_executor.py, src/services/opportunity_monitor.py) -/

/-- Structured result of a `place_*_order` / `close_*_position` call. -/
structure OrderResult where
  success : Bool
  orderId : Option String
  qty : ℚ
  error : Option String
deriving DecidableEq, Repr

/-- An order actually submitted to the exchange. -/
inductive SubmittedOrder
  | futuresOpen (symbol : String)
  | spotOpen (symbol : String)
  | futuresClose (symbol : String)
  | spotClose (symbol : String)
deriving DecidableEq, Repr

/-- Operator-facing events emitted by the open path. -/
inductive AlertEvent
  | criticalUnhedged (symbol : String) (qty : ℚ)
deriving DecidableEq, Repr

/-- Drop characters until just after the first occurrence of `pat`
(the tail of Python `s.split(pat)[1] + pat + s.split(pat)[2] + ...`);
`none` when `pat` does not occur, where Python `[1]` raises `IndexError`. -/
def afterFirst (pat : List Char) : List Char → Option (List Char)
  | [] => none
  | c :: rest =>
    if pat.isPrefixOf (c :: rest) then some ((c :: rest).drop pat.length)
    else afterFirst pat rest

/-- Keep characters strictly before the first `stop` character
(Python `s.split(stop)[0]`). -/
def beforeChar (stop : Char) : List Char → List Char
  | [] => []
  | c :: rest => if c = stop then [] else c :: beforeChar stop rest

/-- Parse an optionally signed decimal integer, rejecting anything else
(Python `int(...)`, which raises `ValueError` on junk — modelled as `none`). -/
def parseInt : List Char → Option ℤ
  | [] => none
  | '-' :: rest => (parseDigits rest).map (fun n => -(n : ℤ))
  | '+' :: rest => (parseDigits rest).map (fun n => (n : ℤ))
  | cs => (parseDigits cs).map (fun n => (n : ℤ))
where
  /-- Digits-only natural number parser. -/
  parseDigits : List Char → Option ℕ
    | [] => none
    | cs => cs.foldlM (fun acc c =>
        if c.isDigit then some (acc * 10 + (c.toNat - '0'.toNat)) else none) 0

/-- Python `str.strip`: drop whitespace from both ends. -/
def stripChars (cs : List Char) : List Char :=
  ((cs.dropWhile Char.isWhitespace).reverse.dropWhile Char.isWhitespace).reverse

/-- The error-code extraction of `monitor_and_execute`:
`error_str.split('Code ')[1].split(':')[0].strip()` parsed as an integer;
any `IndexError` / `ValueError` along the way is swallowed (`none`). -/
def extractErrorCode (errorStr : String) : Option ℤ :=
  match afterFirst "Code ".data errorStr.data with
  | none => none
  | some tail => parseInt (stripChars (beforeChar ':' tail))

/-- `BlacklistManager.should_blacklist_error`: membership in
`CRITICAL_ERROR_CODES`. -/
def shouldBlacklistError (errorCode : ℤ) : Bool :=
  CRITICAL_ERROR_CODES.contains errorCode

/-- The blacklist insertion attempted by `monitor_and_execute` when a leg
fails: only when the error string mentions `Code`, parses to an integer
code, and that code is symbol-fatal; the stored reason is the given tag
followed by the full error string. -/
def blacklistFromError (crypto : String) (tag : String) (errorStr : String) :
    List (String × ℤ × String) :=
  match extractErrorCode errorStr with
  | some code =>
    if shouldBlacklistError code then [(crypto, code, tag ++ errorStr)] else []
  | none => []

/-! ## The two-leg open attempt
(src/services/opportunity_monitor.py, monitor_and_execute, lines 453-591) -/

/-- Everything observable about one open attempt once the entry conditions
fired: the overall result, the orders submitted to the exchange in
submission order, the critical alerts raised, and the blacklist rows added. -/
structure OpenOutcome where
  success : Bool
  orders : List SubmittedOrder
  alerts : List AlertEvent
  blacklist : List (String × ℤ × String)
deriving DecidableEq, Repr

/-- The execution segment of `monitor_and_execute`: place the futures
(short) leg first; if it fails, give up (blacklisting on a symbol-fatal
code).  Only then place the spot (long) leg; if the spot leg fails after
the futures leg succeeded, report failure, emit the critical unhedged
alert with the futures quantity, and blacklist on a symbol-fatal spot
error code.  The futures leg is never resubmitted or closed here. -/
def openExecution (crypto : String) (futRes spotRes : OrderResult) : OpenOutcome :=
  if futRes.success = false then
    { success := false
      orders := [.futuresOpen crypto]
      alerts := []
      blacklist :=
        match futRes.error with
        | some e => blacklistFromError crypto "Futures error: " e
        | none => [] }
  else if spotRes.success then
    { success := true
      orders := [.futuresOpen crypto, .spotOpen crypto]
      alerts := []
      blacklist := [] }
  else
    { success := false
      orders := [.futuresOpen crypto, .spotOpen crypto]
      alerts := [.criticalUnhedged crypto futRes.qty]
      blacklist :=
        match spotRes.error with
        | some e => blacklistFromError crypto "Spot error after futures opened: " e
        | none => [] }

/-! ## Closing a position
(src/services/opportunity_monitor.py, PositionCloser.close_position;
 src/order_executor.py, OrderExecutor.close_spot_position_qty) -/

/-- `OrderExecutor.close_spot_position_qty`: a non-positive quantity is
rejected before any request is made; otherwise the market sell is
submitted and the exchange's answer is returned. -/
def closeSpotPositionQty (symbol : String) (qty : ℚ) (api : OrderResult) :
    OrderResult × List SubmittedOrder :=
  if qty ≤ 0 then
    ({ success := false, orderId := none, qty := qty,
       error := some "insufficient balance" }, [])
  else (api, [.spotClose symbol])

/-- `PositionCloser.close_position`: refuse up front when the re-queried
spot wallet balance or the recorded futures quantity is non-positive, or
when either orderbook is unavailable; otherwise submit both closing legs
and succeed only if both succeeded. -/
def closePosition (symbol : String) (actualSpotBalance futuresQty : ℚ)
    (spotOb futOb : Option (ℚ × ℚ)) (spotApi futApi : OrderResult) :
    Bool × List SubmittedOrder :=
  if actualSpotBalance ≤ 0 then (false, [])
  else if futuresQty ≤ 0 then (false, [])
  else
    match spotOb, futOb with
    | some _, some _ =>
      let spotStep := closeSpotPositionQty symbol actualSpotBalance spotApi
      let futOrders : List SubmittedOrder := [.futuresClose symbol]
      (spotStep.1.success && futApi.success, spotStep.2 ++ futOrders)
    | _, _ => (false, [])

/-! ## The top-up sub-loop guard
(src/services/opportunity_monitor.py, monitor_additional_buys, lines 205-362) -/

/-- What one iteration of the top-up sub-loop decides to do. -/
inductive BuyDecision
  | terminate
  | skip
  | execute (spread : ℚ)
deriving DecidableEq, Repr

/-- The position fields the top-up sub-loop reads from the position
dictionary (optional fields may be absent from the dict). -/
structure PositionView where
  totalEntries : ℕ
  lastAdditionTimestamp : Option ℚ
  lastEntrySpreadPct : Option ℚ
  entrySpreadPct : ℚ
  consecutiveLowFr : Bool
deriving DecidableEq, Repr

/-- One iteration of `monitor_additional_buys`, parameterised by the
configured increment, cooldown (minutes) and cap: stop when the position
is gone or the entry cap is passed; skip while the cooldown since the last
recorded addition is still running, the orderbook is unavailable, a price
is falsy, or the spread has not reached the target; otherwise execute the
top-up at the current spread.  The soft-close flag is never consulted. -/
def additionalBuyStep (maxAdditionalBuys : ℕ) (cooldownMinutes increment : ℚ)
    (pos : Option PositionView) (spotAsk futuresBid : Option ℚ) (now : ℚ) :
    BuyDecision :=
  match pos with
  | none => .terminate
  | some p =>
    if p.totalEntries > maxAdditionalBuys then .terminate
    else
      let cooldownActive :=
        match p.lastAdditionTimestamp with
        | some t => decide (cooldownMinutes * 60 - (now - t) > 0)
        | none => false
      if cooldownActive then .skip
      else
        match spotAsk, futuresBid with
        | some ask, some bid =>
          if ask = 0 ∨ bid = 0 then .skip
          else
            let currentSpread := (bid - ask) / ask * 100
            let lastEntrySpread := p.lastEntrySpreadPct.getD p.entrySpreadPct
            if currentSpread ≥ lastEntrySpread + increment then
              .execute currentSpread
            else .skip
        | _, _ => .skip

/-! ## Exchange gateway retry loop
(src/api/api_client.py, BybitAPIClient.get and BybitAPIClient.post) -/

/-- What the server does on one attempt: a network timeout, another
transient network error, an HTTP 429 with an optional `Retry-After`
header, or an HTTP 200 whose Bybit body carries `retCode` and a payload. -/
inductive HttpResponse
  | timeout
  | netError
  | http429 (retryAfter : Option ℕ)
  | ok (retCode : ℤ) (body : ℕ)
deriving DecidableEq, Repr

/-- `BybitAPIClient.MAX_RETRIES = 3`. -/
def MAX_RETRIES : ℕ := 3

/-- `BybitAPIClient.RETRY_DELAY = 1.0` second. -/
def RETRY_DELAY : ℚ := 1

/-- The `for attempt in range(MAX_RETRIES)` body shared by `get` and
`post`, driven by the server's response per attempt index: HTTP 429
sleeps the `Retry-After` value (default 5) and continues; Bybit
`retCode == 10006` sleeps `RETRY_DELAY` and continues; a timeout or
network error before the last attempt sleeps `RETRY_DELAY * (attempt+1)`
and continues, on the last attempt returns the empty dict; falling off
the loop returns the empty dict.  Returns the sleeps performed and the
result (`none` is the empty dict `{}`). -/
def apiAttempts (f : ℕ → HttpResponse) : ℕ → ℕ → List ℚ × Option (ℤ × ℕ)
  | _, 0 => ([], none)
  | i, fuel + 1 =>
    match f i with
    | .http429 ra =>
      let rest := apiAttempts f (i + 1) fuel
      (((ra.getD 5 : ℕ) : ℚ) :: rest.1, rest.2)
    | .ok rc body =>
      if rc = 10006 then
        let rest := apiAttempts f (i + 1) fuel
        (RETRY_DELAY :: rest.1, rest.2)
      else ([], some (rc, body))
    | .timeout =>
      if i < MAX_RETRIES - 1 then
        let rest := apiAttempts f (i + 1) fuel
        ((RETRY_DELAY * ((i : ℚ) + 1)) :: rest.1, rest.2)
      else ([], none)
    | .netError =>
      if i < MAX_RETRIES - 1 then
        let rest := apiAttempts f (i + 1) fuel
        ((RETRY_DELAY * ((i : ℚ) + 1)) :: rest.1, rest.2)
      else ([], none)

/-- `BybitAPIClient.get`: run the retry loop from attempt 0. -/
def bybitGet (f : ℕ → HttpResponse) : List ℚ × Option (ℤ × ℕ) :=
  apiAttempts f 0 MAX_RETRIES

/-- `BybitAPIClient.post` additionally needs a server-corrected timestamp
before signing; when it cannot be obtained the call returns the empty
dict at once, otherwise the attempt proceeds exactly like `get`. -/
def postAttempts (f : ℕ → HttpResponse) (ts : ℕ → Option ℕ) :
    ℕ → ℕ → List ℚ × Option (ℤ × ℕ)
  | _, 0 => ([], none)
  | i, fuel + 1 =>
    match ts i with
    | none => ([], none)
    | some _ =>
      match f i with
      | .http429 ra =>
        let rest := postAttempts f ts (i + 1) fuel
        (((ra.getD 5 : ℕ) : ℚ) :: rest.1, rest.2)
      | .ok rc body =>
        if rc = 10006 then
          let rest := postAttempts f ts (i + 1) fuel
          (RETRY_DELAY :: rest.1, rest.2)
        else ([], some (rc, body))
      | .timeout =>
        if i < MAX_RETRIES - 1 then
          let rest := postAttempts f ts (i + 1) fuel
          ((RETRY_DELAY * ((i : ℚ) + 1)) :: rest.1, rest.2)
        else ([], none)
      | .netError =>
        if i < MAX_RETRIES - 1 then
          let rest := postAttempts f ts (i + 1) fuel
          ((RETRY_DELAY * ((i : ℚ) + 1)) :: rest.1, rest.2)
        else ([], none)

/-- `BybitAPIClient.post`: run the signed retry loop from attempt 0. -/
def bybitPost (f : ℕ → HttpResponse) (ts : ℕ → Option ℕ) :
    List ℚ × Option (ℤ × ℕ) :=
  postAttempts f ts 0 MAX_RETRIES

/-- A response on which an attempt cannot return a filled result:
timeouts, network errors, HTTP 429 and the Bybit rate-limit code. -/
def transientResponse : HttpResponse → Bool
  | .timeout => true
  | .netError => true
  | .http429 _ => true
  | .ok rc _ => rc = 10006

/-! ## RateLimiter (src/rate_limiter.py)

Idealised real time: `time.time()` is the `now` field of the state, and
`time.sleep(d)` advances it by exactly `d`.  The two deques hold the
request timestamps and the (timestamp, weight) pairs, oldest first. -/

/-- Mutable state of a `RateLimiter` plus the current clock. -/
structure RLState where
  reqTimes : List ℚ
  weightTimes : List (ℚ × ℕ)
  now : ℚ
deriving DecidableEq, Repr

/-- The `while` half of `_cleanup_old_records` for `request_times`: pop
from the front while the entry is more than 1 second old. -/
def dropOldReq (now : ℚ) : List ℚ → List ℚ
  | [] => []
  | t :: ts => if now - t > 1 then dropOldReq now ts else t :: ts

/-- The `while` half of `_cleanup_old_records` for `weight_times`. -/
def dropOldWeight (now : ℚ) : List (ℚ × ℕ) → List (ℚ × ℕ)
  | [] => []
  | e :: ts => if now - e.1 > 1 then dropOldWeight now ts else e :: ts

/-- `sum(w for _, w in self.weight_times)`. -/
def sumWeights (l : List (ℚ × ℕ)) : ℕ := (l.map Prod.snd).sum

/-- Intermediate triple (clock, request deque, weight deque) threaded
through the two budget checks of `wait_if_needed`. -/
abbrev RLMid := ℚ × List ℚ × List (ℚ × ℕ)

/-- The request-count budget check of `wait_if_needed`: when the window
already holds `max_requests_per_second` entries, sleep exactly until the
oldest one is 1 second old (if that is in the future), then re-evict. -/
def reqPhase (maxReq : ℕ) (m : RLMid) : RLMid :=
  if maxReq ≤ m.2.1.length then
    match m.2.1.head? with
    | some oldest =>
      let wait := 1 - (m.1 - oldest)
      if 0 < wait then
        let now := m.1 + wait
        (now, dropOldReq now m.2.1, dropOldWeight now m.2.2)
      else m
    | none => m
  else m

/-- The weight budget check of `wait_if_needed`: when the windowed weight
plus this call's weight would exceed `max_weight_per_second`, sleep until
the oldest weighted entry is 1 second old (if that is in the future),
then re-evict. -/
def weightPhase (maxWeight w : ℕ) (m : RLMid) : RLMid :=
  if maxWeight < sumWeights m.2.2 + w then
    match m.2.2.head? with
    | some e =>
      let wait := 1 - (m.1 - e.1)
      if 0 < wait then
        let now := m.1 + wait
        (now, dropOldReq now m.2.1, dropOldWeight now m.2.2)
      else m
    | none => m
  else m

/-- `RateLimiter.wait_if_needed`: evict entries older than 1 second, run
the request-count check, run the weight check, then record the call at
the (possibly advanced) clock. -/
def waitIfNeeded (maxReq maxWeight w : ℕ) (s : RLState) : RLState :=
  let m0 : RLMid := (s.now, dropOldReq s.now s.reqTimes, dropOldWeight s.now s.weightTimes)
  let m1 := reqPhase maxReq m0
  let m2 := weightPhase maxWeight w m1
  { reqTimes := m2.2.1 ++ [m2.1]
    weightTimes := m2.2.2 ++ [(m2.1, w)]
    now := m2.1 }

/-- A burst of `n` back-to-back calls against a fresh limiter: no time
passes except inside `wait_if_needed` itself.  `(burst ... n).now` is the
instant at which the `n`-th call returns (the first call is at time 0). -/
def burst (maxReq maxWeight w : ℕ) : ℕ → RLState
  | 0 => ⟨[], [], 0⟩
  | n + 1 => waitIfNeeded maxReq maxWeight w (burst maxReq maxWeight w n)

/-! ## Theorems -/

/-- C6: `PnLCalculator.calculate_pnl` is pure and deterministic, and its
returned fields are the claimed leg formulas — spot `(exit-entry)*qty`,
short futures `(entry-exit)*qty`, their sum as price PnL, and
`net = price + funding - commission` computed exactly on the unrounded
components — each rounded to 4 decimal places on output. -/
theorem calculate_pnl_pure_and_exact (se sx fe fx sq fq cr fund : ℚ) :
    calculate_pnl se sx fe fx sq fq cr fund = calculate_pnl se sx fe fx sq fq cr fund ∧
    (calculate_pnl se sx fe fx sq fq cr fund).spot_pnl = pyRound4 ((sx - se) * sq) ∧
    (calculate_pnl se sx fe fx sq fq cr fund).futures_pnl = pyRound4 ((fe - fx) * fq) ∧
    (calculate_pnl se sx fe fx sq fq cr fund).price_pnl =
      pyRound4 ((sx - se) * sq + (fe - fx) * fq) ∧
    (calculate_pnl se sx fe fx sq fq cr fund).net_pnl =
      pyRound4 ((sx - se) * sq + (fe - fx) * fq + fund -
        (sq * se + fq * fe + sq * sx + fq * fx) * cr) ∧
    (calculate_pnl se sx fe fx sq fq cr fund).commission =
      pyRound4 ((sq * se + fq * fe + sq * sx + fq * fx) * cr) ∧
    (calculate_pnl se sx fe fx sq fq cr fund).funding = pyRound4 fund :=
  ⟨rfl, rfl, rfl, rfl, rfl, rfl, rfl⟩

/-- C1 counterexample: at spot entry 100 / exit 200, futures entry 100 /
exit 200, both quantities 1 and rate 0.001, the code charges commission on
the total traded volume, 0.6, while the claimed average-entry-notional
formula gives 0.2. -/
theorem commission_claim_counterexample :
    (calculate_pnl 100 200 100 200 1 1 (1/1000) 0).commission = 3/5 ∧
    pyRound4 (specCommission 100 100 1 1 (1/1000)) = 1/5 ∧
    (calculate_pnl 100 200 100 200 1 1 (1/1000) 0).commission ≠
      pyRound4 (specCommission 100 100 1 1 (1/1000)) := by
  refine ⟨?_, ?_, ?_⟩ <;>
    norm_num [calculate_pnl, specCommission, pyRound4, pyRoundInt]

/-- C1 amended: the commission returned by `calculate_pnl` is the total
traded volume — entry and exit notionals of both legs at their actual
prices — times the commission rate, rounded to 4 decimals; it is not
based on the average entry notional. -/
theorem commission_is_total_volume (se sx fe fx sq fq cr fund : ℚ) :
    (calculate_pnl se sx fe fx sq fq cr fund).commission =
      pyRound4 ((sq * se + fq * fe + sq * sx + fq * fx) * cr) :=
  rfl

/-- C3 counterexample: a position whose soft-close latch is set loses the
latch on a single monitoring round whose funding rate (0.02%) is above the
tracking threshold (0.01%). -/
theorem soft_close_latch_counterexample :
    (FundingState.mk 20 20 true).consecutiveLowFr = true ∧
    LOW_FR_TRACKING_THRESHOLD < 2/100 ∧
    (incrementFundingCount (FundingState.mk 20 20 true) (2/100)).consecutiveLowFr
      = false := by
  refine ⟨rfl, by norm_num [LOW_FR_TRACKING_THRESHOLD], ?_⟩
  norm_num [incrementFundingCount, repoIncrementFundingCount,
    LOW_FR_TRACKING_THRESHOLD, MIN_FUNDING_PAYMENTS_FOR_CLOSE]

/-- C3 amended: once the soft-close latch is set, a funding round keeps it
set exactly when the funding rate stays at or below the tracking
threshold; a single round above the threshold clears the latch (together
with the low-FR counter). -/
theorem soft_close_latch_persists_iff_low (pos : FundingState) (fr : ℚ)
    (h : pos.consecutiveLowFr = true) :
    (incrementFundingCount pos fr).consecutiveLowFr = true ↔
      fr ≤ LOW_FR_TRACKING_THRESHOLD := by
  by_cases hfr : fr ≤ LOW_FR_TRACKING_THRESHOLD <;>
    simp [incrementFundingCount, repoIncrementFundingCount, hfr, h,
      MIN_FUNDING_PAYMENTS_FOR_CLOSE]

/-- Witness for the amended C3 theorem at a concrete latched position and
funding rate 0. -/
theorem soft_close_latch_persists_iff_low_witness :
    ((incrementFundingCount (FundingState.mk 3 3 true) 0).consecutiveLowFr = true ↔
      (0 : ℚ) ≤ LOW_FR_TRACKING_THRESHOLD) :=
  soft_close_latch_persists_iff_low (FundingState.mk 3 3 true) 0 rfl

/-- C7: in both normal and soft-close mode, a monitoring round whose close
spread exceeds `MAX_CLOSE_SPREAD_PCT` never starts closing, whatever the
funding rate. -/
theorem close_only_if_spread_bounded (soft : Bool) (fr spotBid futAsk : ℚ)
    (h : MAX_CLOSE_SPREAD_PCT < (futAsk - spotBid) / spotBid * 100) :
    monitorRound soft fr spotBid futAsk = .wait := by
  have hn : ¬((futAsk - spotBid) / spotBid * 100 ≤ MAX_CLOSE_SPREAD_PCT) :=
    not_le.mpr h
  cases soft <;> simp [monitorRound, shouldClose, hn]

/-- Witness for C7: with spot bid 100 and futures ask 200 the close spread
is 100%, above the 0.15% bound, so even a deeply negative funding rate
does not trigger closing. -/
theorem close_only_if_spread_bounded_witness :
    monitorRound true (-100) 100 200 = .wait :=
  close_only_if_spread_bounded true (-100) 100 200
    (by norm_num [MAX_CLOSE_SPREAD_PCT])

/-- Blending a positive-quantity average with a positive-quantity fill at
a different price lands strictly between the old average and the fill. -/
theorem weighted_avg_strictly_between (a p qo qn : ℚ)
    (hqo : 0 < qo) (hqn : 0 < qn) (hne : p ≠ a) :
    StrictlyBetween a ((a * qo + p * qn) / (qo + qn)) p := by
  have hpos : 0 < qo + qn := by linarith
  rcases lt_or_gt_of_ne hne with hlt | hgt
  · right
    constructor
    · rw [lt_div_iff hpos]; nlinarith [mul_pos (sub_pos.mpr hlt) hqo]
    · rw [div_lt_iff hpos]; nlinarith [mul_pos (sub_pos.mpr hlt) hqn]
  · left
    constructor
    · rw [lt_div_iff hpos]; nlinarith [mul_pos (sub_pos.mpr hgt) hqn]
    · rw [div_lt_iff hpos]; nlinarith [mul_pos (sub_pos.mpr hgt) hqo]

/-- C5: on a top-up of a position with positive held quantities,
`add_to_position` succeeds, recomputes each leg's average entry price as
the quantity-weighted mean, increments `total_entries`, stamps the
addition time and the new spread; the new average equals the old one for
a zero fill and lies strictly between the old average and the fill price
for a positive fill at a different price. -/
theorem add_to_position_blends (pos : PositionAvg) (pS pF qS qF spr t : ℚ)
    (hS : 0 < pos.spotQty) (hF : 0 < pos.futuresQty)
    (hqS : 0 ≤ qS) (hqF : 0 ≤ qF) :
    addToPosition pos pS pF qS qF spr t =
      some (addToPositionUpd pos pS pF qS qF spr t) ∧
    (addToPositionUpd pos pS pF qS qF spr t).averageSpotEntryPrice =
      (pos.averageSpotEntryPrice * pos.spotQty + pS * qS) / (pos.spotQty + qS) ∧
    (addToPositionUpd pos pS pF qS qF spr t).averageFuturesEntryPrice =
      (pos.averageFuturesEntryPrice * pos.futuresQty + pF * qF) /
        (pos.futuresQty + qF) ∧
    (addToPositionUpd pos pS pF qS qF spr t).totalEntries =
      pos.totalEntries + 1 ∧
    (addToPositionUpd pos pS pF qS qF spr t).lastAdditionTimestamp = some t ∧
    (addToPositionUpd pos pS pF qS qF spr t).lastEntrySpreadPct = spr ∧
    (qS = 0 → (addToPositionUpd pos pS pF qS qF spr t).averageSpotEntryPrice =
      pos.averageSpotEntryPrice) ∧
    (qF = 0 → (addToPositionUpd pos pS pF qS qF spr t).averageFuturesEntryPrice =
      pos.averageFuturesEntryPrice) ∧
    (0 < qS → pS ≠ pos.averageSpotEntryPrice →
      StrictlyBetween pos.averageSpotEntryPrice
        (addToPositionUpd pos pS pF qS qF spr t).averageSpotEntryPrice pS) ∧
    (0 < qF → pF ≠ pos.averageFuturesEntryPrice →
      StrictlyBetween pos.averageFuturesEntryPrice
        (addToPositionUpd pos pS pF qS qF spr t).averageFuturesEntryPrice pF) := by
  have hS' : (0 : ℚ) < pos.spotQty + qS := by linarith
  have hF' : (0 : ℚ) < pos.futuresQty + qF := by linarith
  refine ⟨by simp [addToPosition, hS'.ne', hF'.ne'], rfl, rfl, rfl, rfl, rfl,
    ?_, ?_, ?_, ?_⟩
  · intro h0
    show (pos.averageSpotEntryPrice * pos.spotQty + pS * qS) /
      (pos.spotQty + qS) = pos.averageSpotEntryPrice
    rw [h0, mul_zero, add_zero, add_zero, mul_div_assoc,
      div_self hS.ne', mul_one]
  · intro h0
    show (pos.averageFuturesEntryPrice * pos.futuresQty + pF * qF) /
      (pos.futuresQty + qF) = pos.averageFuturesEntryPrice
    rw [h0, mul_zero, add_zero, add_zero, mul_div_assoc,
      div_self hF.ne', mul_one]
  · intro hq hne
    exact weighted_avg_strictly_between _ _ _ _ hS hq hne
  · intro hq hne
    exact weighted_avg_strictly_between _ _ _ _ hF hq hne

/-- Witness for C5 at a concrete position: one unit held at spot average
100 and futures average 110, topped up with one unit at 200 and 90. -/
theorem add_to_position_blends_witness :
    addToPosition (PositionAvg.mk 1 1 100 110 (45/100) 1 none)
        200 90 1 1 (6/10) 42 =
      some (addToPositionUpd (PositionAvg.mk 1 1 100 110 (45/100) 1 none)
        200 90 1 1 (6/10) 42) ∧
    StrictlyBetween 100
      ((addToPositionUpd (PositionAvg.mk 1 1 100 110 (45/100) 1 none)
        200 90 1 1 (6/10) 42).averageSpotEntryPrice) 200 := by
  have h := add_to_position_blends (PositionAvg.mk 1 1 100 110 (45/100) 1 none)
    200 90 1 1 (6/10) 42 (by norm_num) (by norm_num) (by norm_num) (by norm_num)
  exact ⟨h.1, h.2.2.2.2.2.2.2.2.1 (by norm_num) (by norm_num)⟩

/-- C2: on every open attempt the futures (short) leg is submitted first
and the spot leg, if at all, right after it; when the futures leg succeeds
and the spot leg fails, the attempt reports failure, exactly those two
orders were submitted (the futures leg is neither retried nor unwound), a
critical alert carrying the symbol and the unhedged futures quantity is
emitted, and a symbol-fatal spot error code puts the symbol on the
blacklist with that code under a reason starting with `Spot error`. -/
theorem open_attempt_futures_first (crypto : String) (futRes spotRes : OrderResult) :
    ((openExecution crypto futRes spotRes).orders = [.futuresOpen crypto] ∨
      (openExecution crypto futRes spotRes).orders =
        [.futuresOpen crypto, .spotOpen crypto]) ∧
    (futRes.success = true → spotRes.success = false →
      (openExecution crypto futRes spotRes).success = false ∧
      (openExecution crypto futRes spotRes).orders =
        [.futuresOpen crypto, .spotOpen crypto] ∧
      AlertEvent.criticalUnhedged crypto futRes.qty ∈
        (openExecution crypto futRes spotRes).alerts ∧
      (∀ e code, spotRes.error = some e → extractErrorCode e = some code →
        shouldBlacklistError code = true →
        (crypto, code, "Spot error after futures opened: " ++ e) ∈
          (openExecution crypto futRes spotRes).blacklist ∧
        List.isPrefixOf "Spot error".data
          ("Spot error after futures opened: " ++ e).data = true)) := by
  constructor
  · by_cases hf : futRes.success = false
    · left; simp [openExecution, hf]
    · right
      simp only [Bool.not_eq_false] at hf
      by_cases hs : spotRes.success <;> simp [openExecution, hf, hs]
  · intro hf hs
    refine ⟨by simp [openExecution, hf, hs], by simp [openExecution, hf, hs],
      by simp [openExecution, hf, hs], ?_⟩
    intro e code he hcode hbl
    constructor
    · simp [openExecution, hf, hs, he, blacklistFromError, hcode, hbl]
    · rw [List.isPrefixOf_iff_prefix, String.data_append]
      exact List.IsPrefix.trans (by decide) (List.prefix_append _ _)

/-- Witness for C2: the specification's acceptance scenario — the futures
leg fills as order `F1` with quantity 5, the spot leg fails with exchange
code 10001 — yields failure, exactly the two submissions, the critical
unhedged alert, and the blacklist row for code 10001. -/
theorem open_attempt_futures_first_witness :
    (openExecution "XYZ" (OrderResult.mk true (some "F1") 5 none)
      (OrderResult.mk false none 0 (some "Code 10001: Symbol not found"))).success
        = false ∧
    (openExecution "XYZ" (OrderResult.mk true (some "F1") 5 none)
      (OrderResult.mk false none 0 (some "Code 10001: Symbol not found"))).orders
        = [.futuresOpen "XYZ", .spotOpen "XYZ"] ∧
    AlertEvent.criticalUnhedged "XYZ" 5 ∈
      (openExecution "XYZ" (OrderResult.mk true (some "F1") 5 none)
        (OrderResult.mk false none 0 (some "Code 10001: Symbol not found"))).alerts ∧
    ("XYZ", (10001 : ℤ),
        "Spot error after futures opened: " ++ "Code 10001: Symbol not found") ∈
      (openExecution "XYZ" (OrderResult.mk true (some "F1") 5 none)
        (OrderResult.mk false none 0 (some "Code 10001: Symbol not found"))).blacklist := by
  have h := (open_attempt_futures_first "XYZ"
    (OrderResult.mk true (some "F1") 5 none)
    (OrderResult.mk false none 0 (some "Code 10001: Symbol not found"))).2 rfl rfl
  exact ⟨h.1, h.2.1, h.2.2.1,
    (h.2.2.2 "Code 10001: Symbol not found" 10001 rfl rfl (by decide)).1⟩

/-- C10: `close_position` with a non-positive re-queried spot balance or a
non-positive recorded futures quantity returns `False` before any closing
order of either leg is submitted, and `close_spot_position_qty` with a
non-positive quantity fails without placing an order. -/
theorem close_position_guards (symbol : String) (bal fq : ℚ)
    (spotOb futOb : Option (ℚ × ℚ)) (spotApi futApi : OrderResult)
    (sym2 : String) (qty : ℚ) (api : OrderResult)
    (h : bal ≤ 0 ∨ fq ≤ 0) (hq : qty ≤ 0) :
    closePosition symbol bal fq spotOb futOb spotApi futApi = (false, []) ∧
    (closeSpotPositionQty sym2 qty api).1.success = false ∧
    (closeSpotPositionQty sym2 qty api).2 = [] := by
  refine ⟨?_, by simp [closeSpotPositionQty, hq], by simp [closeSpotPositionQty, hq]⟩
  rcases h with h | h
  · simp [closePosition, h]
  · by_cases hb : bal ≤ 0 <;> simp [closePosition, hb, h]

/-- Witness for C10: a recorded futures quantity of 0 blocks the close,
and a spot close with quantity -1 is rejected without an order. -/
theorem close_position_guards_witness :
    closePosition "BTC" 2 0 (some (1, 1)) (some (1, 1))
      (OrderResult.mk true none 2 none) (OrderResult.mk true none 2 none)
        = (false, []) ∧
    (closeSpotPositionQty "ETH" (-1) (OrderResult.mk true none 1 none)).1.success
        = false ∧
    (closeSpotPositionQty "ETH" (-1) (OrderResult.mk true none 1 none)).2 = [] :=
  close_position_guards "BTC" 2 0 (some (1, 1)) (some (1, 1))
    (OrderResult.mk true none 2 none) (OrderResult.mk true none 2 none)
    "ETH" (-1) (OrderResult.mk true none 1 none)
    (Or.inr (by norm_num)) (by norm_num)

/-- C4 counterexample: the top-up sub-loop executes a top-up for a
position whose soft-close flag (`consecutive_low_fr`) is set — the guard
never consults the flag, so "never while soft-close is active" fails. -/
theorem topup_during_soft_close_counterexample :
    (PositionView.mk 1 none (some (45/100)) (45/100) true).consecutiveLowFr
      = true ∧
    additionalBuyStep 3 5 (15/100)
      (some (PositionView.mk 1 none (some (45/100)) (45/100) true))
      (some 100) (some 101) 0 = .execute 1 := by
  refine ⟨rfl, ?_⟩
  norm_num [additionalBuyStep]

/-- C4 amended: whenever an iteration of the top-up sub-loop executes a
top-up, the entry count does not exceed the configured cap, the cooldown
since the last recorded addition has elapsed, and the executed spread is
at least the last entry spread plus the configured increment; moreover
the decision is independent of the soft-close flag, so a top-up may also
run while soft-close is active. -/
theorem topup_guard (maxB : ℕ) (cd inc : ℚ) (p : PositionView)
    (ask bid : Option ℚ) (now s : ℚ)
    (h : additionalBuyStep maxB cd inc (some p) ask bid now = .execute s) :
    p.totalEntries ≤ maxB ∧
    (∀ t, p.lastAdditionTimestamp = some t → cd * 60 ≤ now - t) ∧
    p.lastEntrySpreadPct.getD p.entrySpreadPct + inc ≤ s ∧
    (∀ b : Bool, additionalBuyStep maxB cd inc
        (some { p with consecutiveLowFr := b }) ask bid now = .execute s) := by
  unfold additionalBuyStep at h
  by_cases h1 : p.totalEntries > maxB
  · simp [h1] at h
  · simp only [if_neg h1] at h
    rcases hlat : p.lastAdditionTimestamp with _ | t <;> rw [hlat] at h
    · rcases ask with _ | a
      · simp at h
      rcases bid with _ | b
      · simp at h
      by_cases hz : a = 0 ∨ b = 0
      · simp [hz] at h
      · simp only [if_neg hz, if_neg (by simp : ¬(false = true))] at h
        by_cases hs : (b - a) / a * 100 ≥
            p.lastEntrySpreadPct.getD p.entrySpreadPct + inc
        · simp only [if_pos hs] at h
          injection h with hval
          subst hval
          refine ⟨Nat.le_of_not_lt h1, ?_, hs, ?_⟩
          · intro t ht
            simp [hlat] at ht
          · intro bb
            simp [additionalBuyStep, h1, hlat, hz, hs]
        · simp [hs] at h
    · by_cases hcd : cd * 60 - (now - t) > 0
      · simp [hcd] at h
      · simp only [decide_eq_false hcd, if_neg (by simp : ¬(false = true))] at h
        rcases ask with _ | a
        · simp at h
        rcases bid with _ | b
        · simp at h
        by_cases hz : a = 0 ∨ b = 0
        · simp [hz] at h
        · simp only [if_neg hz] at h
          by_cases hs : (b - a) / a * 100 ≥
              p.lastEntrySpreadPct.getD p.entrySpreadPct + inc
          · simp only [if_pos hs] at h
            injection h with hval
            subst hval
            refine ⟨Nat.le_of_not_lt h1, ?_, hs, ?_⟩
            · intro t' ht'
              injection ht' with ht''
              subst ht''
              linarith [not_lt.mp hcd]
            · intro bb
              simp [additionalBuyStep, h1, hlat, hz, hs, hcd]
          · simp [hs] at h

/-- Witness for the amended C4 theorem: a concrete executed top-up, from
which the cap bound, the spread bound and soft-close independence follow. -/
theorem topup_guard_witness :
    (PositionView.mk 1 (some 0) (some (45/100)) (45/100) false).totalEntries ≤ 3 ∧
    (45/100 : ℚ) + 15/100 ≤ 1 ∧
    additionalBuyStep 3 5 (15/100)
      (some { PositionView.mk 1 (some 0) (some (45/100)) (45/100) false with
        consecutiveLowFr := true })
      (some 100) (some 101) 1000 = .execute 1 := by
  have h := topup_guard 3 5 (15/100)
    (PositionView.mk 1 (some 0) (some (45/100)) (45/100) false)
    (some 100) (some 101) 1000 1 (by norm_num [additionalBuyStep])
  exact ⟨h.1, h.2.2.1, h.2.2.2 true⟩

/-- The retry loop sleeps at most once per attempt, so at most
`fuel` times. -/
theorem apiAttempts_sleeps_le (f : ℕ → HttpResponse) :
    ∀ fuel i, (apiAttempts f i fuel).1.length ≤ fuel := by
  intro fuel
  induction fuel with
  | zero => intro i; simp [apiAttempts]
  | succ n ih =>
    intro i
    cases hf : f i with
    | http429 ra => simpa [apiAttempts, hf] using Nat.succ_le_succ (ih (i + 1))
    | ok rc body =>
      by_cases h : rc = 10006 <;>
        simp [apiAttempts, hf, h]
      exact ih (i + 1)
    | timeout =>
      by_cases h : i < MAX_RETRIES - 1 <;> simp [apiAttempts, hf, h]
      exact ih (i + 1)
    | netError =>
      by_cases h : i < MAX_RETRIES - 1 <;> simp [apiAttempts, hf, h]
      exact ih (i + 1)

/-- When every attempted response is transient, the `get` loop ends with
the empty dict instead of raising. -/
theorem apiAttempts_transient_none (f : ℕ → HttpResponse) :
    ∀ fuel i, (∀ j, i ≤ j → j < i + fuel → transientResponse (f j) = true) →
      (apiAttempts f i fuel).2 = none := by
  intro fuel
  induction fuel with
  | zero => intro i _; simp [apiAttempts]
  | succ n ih =>
    intro i h
    have hi : transientResponse (f i) = true := h i le_rfl (by omega)
    have hrec : ∀ j, i + 1 ≤ j → j < (i + 1) + n →
        transientResponse (f j) = true := by
      intro j h1 h2; exact h j (by omega) (by omega)
    cases hf : f i with
    | http429 ra => simp [apiAttempts, hf, ih (i + 1) hrec]
    | ok rc body =>
      rw [hf] at hi
      simp only [transientResponse, decide_eq_true_eq] at hi
      simp [apiAttempts, hf, hi, ih (i + 1) hrec]
    | timeout =>
      by_cases hb : i < MAX_RETRIES - 1 <;>
        simp [apiAttempts, hf, hb, ih (i + 1) hrec]
    | netError =>
      by_cases hb : i < MAX_RETRIES - 1 <;>
        simp [apiAttempts, hf, hb, ih (i + 1) hrec]

/-- When every attempted response is transient, the `post` loop also ends
with the empty dict. -/
theorem postAttempts_transient_none (f : ℕ → HttpResponse) (ts : ℕ → Option ℕ) :
    ∀ fuel i, (∀ j, i ≤ j → j < i + fuel → transientResponse (f j) = true) →
      (postAttempts f ts i fuel).2 = none := by
  intro fuel
  induction fuel with
  | zero => intro i _; simp [postAttempts]
  | succ n ih =>
    intro i h
    have hi : transientResponse (f i) = true := h i le_rfl (by omega)
    have hrec : ∀ j, i + 1 ≤ j → j < (i + 1) + n →
        transientResponse (f j) = true := by
      intro j h1 h2; exact h j (by omega) (by omega)
    cases hts : ts i with
    | none => simp [postAttempts, hts]
    | some v =>
      cases hf : f i with
      | http429 ra => simp [postAttempts, hts, hf, ih (i + 1) hrec]
      | ok rc body =>
        rw [hf] at hi
        simp only [transientResponse, decide_eq_true_eq] at hi
        simp [postAttempts, hts, hf, hi, ih (i + 1) hrec]
      | timeout =>
        by_cases hb : i < MAX_RETRIES - 1 <;>
          simp [postAttempts, hts, hf, hb, ih (i + 1) hrec]
      | netError =>
        by_cases hb : i < MAX_RETRIES - 1 <;>
          simp [postAttempts, hts, hf, hb, ih (i + 1) hrec]

/-- C8: the gateway's `get`/`post` read the `Retry-After` value (default 5
seconds) on HTTP 429 and retry; a timeout before the last attempt sleeps
the linearly increasing backoff `RETRY_DELAY * (attempt+1)` and retries;
at most `MAX_RETRIES = 3` attempts (hence sleeps) happen; and when every
attempt meets a transient response, both calls return the empty dict
rather than raising — `post` also short-circuits to the empty dict when
no signing timestamp can be obtained. -/
theorem gateway_retry (f : ℕ → HttpResponse) (ts : ℕ → Option ℕ) (ra : Option ℕ) :
    (f 0 = .http429 ra →
      bybitGet f = (((ra.getD 5 : ℕ) : ℚ) :: (apiAttempts f 1 (MAX_RETRIES - 1)).1,
        (apiAttempts f 1 (MAX_RETRIES - 1)).2)) ∧
    (∀ i, f i = .timeout → i + 1 < MAX_RETRIES →
      apiAttempts f i (MAX_RETRIES - i) =
        ((RETRY_DELAY * ((i : ℚ) + 1)) ::
            (apiAttempts f (i + 1) (MAX_RETRIES - (i + 1))).1,
          (apiAttempts f (i + 1) (MAX_RETRIES - (i + 1))).2)) ∧
    (bybitGet f).1.length ≤ MAX_RETRIES ∧
    ((∀ i, i < MAX_RETRIES → transientResponse (f i) = true) →
      (bybitGet f).2 = none) ∧
    (ts 0 = none → bybitPost f ts = ([], none)) ∧
    ((∀ i, i < MAX_RETRIES → transientResponse (f i) = true) →
      (bybitPost f ts).2 = none) := by
  refine ⟨?_, ?_, apiAttempts_sleeps_le f MAX_RETRIES 0, ?_, ?_, ?_⟩
  · intro h0
    simp [bybitGet, MAX_RETRIES, apiAttempts, h0]
  · intro i hf hi
    have hi2 : i < 2 := by
      have := hi
      simp only [MAX_RETRIES] at this
      omega
    interval_cases i <;> simp [apiAttempts, hf, MAX_RETRIES]
  · intro h
    exact apiAttempts_transient_none f MAX_RETRIES 0
      (by intro j _ hj; exact h j (by omega))
  · intro h0
    simp [bybitPost, MAX_RETRIES, postAttempts, h0]
  · intro h
    exact postAttempts_transient_none f ts MAX_RETRIES 0
      (by intro j _ hj; exact h j (by omega))

/-- Witness for C8: a server answering HTTP 429 with `Retry-After: 7` on
the first attempt and timing out afterwards makes `get` sleep 7 seconds,
then sleep the 2-second backoff, then return the empty dict; `post` with
no obtainable timestamp returns the empty dict at once. -/
theorem gateway_retry_witness :
    bybitGet (fun i => if i = 0 then HttpResponse.http429 (some 7) else .timeout)
      = ([7, 2], none) ∧
    apiAttempts (fun i => if i = 0 then HttpResponse.http429 (some 7) else .timeout)
      1 (MAX_RETRIES - 1) = ([2], none) ∧
    (bybitGet (fun i => if i = 0 then HttpResponse.http429 (some 7)
      else .timeout)).1.length ≤ MAX_RETRIES ∧
    bybitPost (fun i => if i = 0 then HttpResponse.http429 (some 7) else .timeout)
      (fun _ => none) = ([], none) := by
  have h := gateway_retry
    (fun i => if i = 0 then HttpResponse.http429 (some 7) else .timeout)
    (fun _ => none) (some 7)
  have h3 : apiAttempts (fun i => if i = 0 then HttpResponse.http429 (some 7)
      else .timeout) 2 (MAX_RETRIES - 2) = ([], none) := by
    norm_num [apiAttempts, MAX_RETRIES]
  have h2 := h.2.1 1 rfl (by norm_num [MAX_RETRIES])
  rw [h3] at h2
  norm_num [RETRY_DELAY] at h2
  have h1 := h.1 rfl
  rw [h2] at h1
  norm_num at h1
  exact ⟨h1, h2, h.2.2.1, h.2.2.2.2.1 rfl⟩

/-- C9 counterexample: with a request budget of 1/sec, the 2nd call of a
2-call burst completes 1 second after the first, not the claimed
`N/budget = 2` seconds; and with a weight budget of 1, after a 2-call
burst the trailing 1-second window holds recorded weight 2 — the window
boundary entry (exactly 1 second old) is not evicted and the guard does
not sleep for a zero wait. -/
theorem rate_limiter_claim_counterexample :
    (burst 1 1000 1 1).now = 0 ∧
    (burst 1 1000 1 2).now = 1 ∧
    ¬((2 : ℚ) / 1 ≤ (burst 1 1000 1 2).now - (burst 1 1000 1 1).now) ∧
    sumWeights (dropOldWeight (burst 1000 1 1 2).now
      (burst 1000 1 1 2).weightTimes) = 2 ∧ ¬(2 ≤ (1 : ℕ)) := by
  refine ⟨?_, ?_, ?_, ?_, by norm_num⟩ <;>
    norm_num [burst, waitIfNeeded, reqPhase, weightPhase, dropOldReq,
      dropOldWeight, sumWeights]

/-- Sleeping never turns the clock back: the request-count check only
adds a positive wait. -/
theorem reqPhase_now_le (B : ℕ) (m : RLMid) : m.1 ≤ (reqPhase B m).1 := by
  unfold reqPhase
  split
  · cases hh : m.2.1.head? with
    | none => simp
    | some oldest =>
      simp only []
      split
      · next hw => simp; linarith
      · simp
  · simp

/-- Sleeping never turns the clock back: the weight check only adds a
positive wait. -/
theorem weightPhase_now_le (Wt w : ℕ) (m : RLMid) : m.1 ≤ (weightPhase Wt w m).1 := by
  unfold weightPhase
  split
  · cases hh : m.2.2.head? with
    | none => simp
    | some e =>
      simp only []
      split
      · next hw => simp; linarith
      · simp
  · simp

/-- `wait_if_needed` never decreases the clock. -/
theorem waitIfNeeded_now_mono (B Wt w : ℕ) (s : RLState) :
    s.now ≤ (waitIfNeeded B Wt w s).now := by
  unfold waitIfNeeded
  simp only []
  calc s.now ≤ (reqPhase B (s.now, dropOldReq s.now s.reqTimes,
        dropOldWeight s.now s.weightTimes)).1 :=
      reqPhase_now_le B _
    _ ≤ _ := weightPhase_now_le Wt w _

/-- Entries recorded at time 0 survive eviction at a clock of at most 1
second. -/
theorem dropOldReq_replicate_zero (now : ℚ) (k : ℕ) (h : ¬(now - 0 > 1)) :
    dropOldReq now (List.replicate k 0) = List.replicate k 0 := by
  cases k with
  | zero => rfl
  | succ n => rw [List.replicate_succ, dropOldReq, if_neg h]

/-- Weighted entries recorded at time 0 survive eviction at a clock of at
most 1 second. -/
theorem dropOldWeight_replicate_zero (now : ℚ) (k w : ℕ) (h : ¬(now - 0 > 1)) :
    dropOldWeight now (List.replicate k ((0 : ℚ), w)) = List.replicate k (0, w) := by
  cases k with
  | zero => rfl
  | succ n => rw [List.replicate_succ, dropOldWeight, if_neg h]

/-- The windowed weight of `k` equal-weight entries. -/
theorem sumWeights_replicate (k w : ℕ) :
    sumWeights (List.replicate k ((0 : ℚ), w)) = k * w := by
  simp [sumWeights, List.map_replicate, List.sum_replicate, smul_eq_mul]

/-- The first `B` calls of a burst against a fresh limiter whose weight
budget is not binding all pass instantly at time 0. -/
theorem burst_init (B Wt w : ℕ) (hW : B * w ≤ Wt) :
    ∀ k, k ≤ B → burst B Wt w k =
      ⟨List.replicate k 0, List.replicate k (0, w), 0⟩ := by
  intro k
  induction k with
  | zero => intro _; rfl
  | succ k ih =>
    intro hk
    have hkB : k ≤ B := Nat.le_of_succ_le hk
    rw [burst, ih hkB]
    unfold waitIfNeeded
    have h0 : ¬((0 : ℚ) - 0 > 1) := by norm_num
    simp only [dropOldReq_replicate_zero 0 k h0, dropOldWeight_replicate_zero 0 k w h0]
    have hmul : k * w + w ≤ Wt := by
      have h1 : (k + 1) * w ≤ B * w := Nat.mul_le_mul_right w hk
      rw [Nat.succ_mul] at h1
      omega
    have hreq : reqPhase B ((0 : ℚ), List.replicate k 0,
        List.replicate k ((0 : ℚ), w)) =
        ((0 : ℚ), List.replicate k 0, List.replicate k ((0 : ℚ), w)) := by
      unfold reqPhase
      rw [if_neg]
      simp only [List.length_replicate]
      omega
    have hwt : weightPhase Wt w ((0 : ℚ), List.replicate k 0,
        List.replicate k ((0 : ℚ), w)) =
        ((0 : ℚ), List.replicate k 0, List.replicate k ((0 : ℚ), w)) := by
      unfold weightPhase
      rw [if_neg]
      rw [sumWeights_replicate]
      omega
    rw [hreq, hwt]
    simp [List.replicate_succ']

/-- Call `B+1` of the burst finds the request window full and sleeps
exactly until the oldest entry is one second old: it returns at time 1. -/
theorem burst_trigger (B Wt w : ℕ) (hB : 1 ≤ B) (hW : B * w ≤ Wt) :
    (burst B Wt w (B + 1)).now = 1 := by
  rw [burst, burst_init B Wt w hW B le_rfl]
  unfold waitIfNeeded
  have h0 : ¬((0 : ℚ) - 0 > 1) := by norm_num
  simp only [dropOldReq_replicate_zero 0 B h0, dropOldWeight_replicate_zero 0 B w h0]
  obtain ⟨b, rfl⟩ : ∃ b, B = b + 1 := ⟨B - 1, by omega⟩
  have h1 : ¬((1 : ℚ) - 0 > 1) := by norm_num
  have hreq : reqPhase (b + 1) ((0 : ℚ), List.replicate (b + 1) 0,
      List.replicate (b + 1) ((0 : ℚ), w)) =
      ((1 : ℚ), List.replicate (b + 1) 0, List.replicate (b + 1) ((0 : ℚ), w)) := by
    unfold reqPhase
    rw [if_pos (by simp)]
    rw [List.replicate_succ, List.head?_cons]
    simp only []
    rw [if_pos (by norm_num)]
    rw [← List.replicate_succ]
    have e1 : (0 : ℚ) + (1 - (0 - 0)) = 1 := by norm_num
    rw [e1, dropOldReq_replicate_zero 1 (b + 1) h1,
      dropOldWeight_replicate_zero 1 (b + 1) w h1]
  rw [hreq]
  unfold weightPhase
  split
  · rw [show List.replicate (b + 1) ((0 : ℚ), w) = ((0 : ℚ), w) ::
        List.replicate b ((0 : ℚ), w) from List.replicate_succ _ _,
      List.head?_cons]
    simp only []
    rw [if_neg (by norm_num)]
  · rfl

/-- Within one burst, a later call never returns earlier. -/
theorem burst_now_mono (B Wt w : ℕ) :
    ∀ n m, n ≤ m → (burst B Wt w n).now ≤ (burst B Wt w m).now := by
  intro n m h
  induction m with
  | zero =>
    rw [Nat.le_zero.mp h]
  | succ m ih =>
    rcases Nat.eq_or_lt_of_le h with rfl | hlt
    · exact le_refl _
    · exact le_trans (ih (Nat.lt_succ_iff.mp hlt))
        (waitIfNeeded_now_mono B Wt w (burst B Wt w m))

/-- C9 amended: for a burst of `n` back-to-back calls against a fresh
limiter with request budget `B ≥ 1` per second (and the weight budget not
binding for the first `B` calls), the first call returns at time 0 and
every call past the budget — in particular the `n`-th — returns no
earlier than 1 second later; the pacing granularity is the 1-second
sliding window, not `n/budget` seconds. -/
theorem rate_limiter_min_gap (B Wt w n : ℕ)
    (hB : 1 ≤ B) (hn : B < n) (hW : B * w ≤ Wt) :
    (burst B Wt w 1).now = 0 ∧ 1 ≤ (burst B Wt w n).now := by
  constructor
  · rw [burst_init B Wt w hW 1 hB]
  · have h1 := burst_trigger B Wt w hB hW
    have h2 := burst_now_mono B Wt w (B + 1) n hn
    rw [h1] at h2
    exact h2

/-- Witness for the amended C9 theorem: budget 1, weight budget 10, a
burst of 2 calls. -/
theorem rate_limiter_min_gap_witness :
    (burst 1 10 1 1).now = 0 ∧ 1 ≤ (burst 1 10 1 2).now :=
  rate_limiter_min_gap 1 10 1 2 (by norm_num) (by norm_num) (by norm_num)
